import Mathlib

/-!
Shallow embedding of the e-vote application's business logic.

Source files:
* `src/CandidateList.tsx` — the voter view; its `handleVote` function is the
  vote-submission state machine (precondition check on `hasVoted`, insert of a
  vote row, interpretation of the backend's 23505 uniqueness-violation code,
  and a `finally` block resetting the `votingFor` submission state).
* `src/unnamed/part_000` — the admin panel; `fetchVoteResults` derives the
  tally (per-candidate counts, sorted descending by count with JavaScript's
  stable `Array.prototype.sort`), `fetchVoters` derives the participation
  list, `handleAddCandidate` inserts a candidate normalizing empty optional
  fields to `null`, `totalVotes` sums the per-candidate counts, and the
  render computes a per-entry percentage guarded against division by zero.

Imperative handlers are embedded as pure functions from their inputs (form
state, the backend call's result) to the list of observable effects they
perform, in order; React state updates are replayed by folding over that list.
-/

namespace EVote

/-! ## Data model rows (as selected from the backend) -/

/-- A row of the `candidates` table as fetched by `CandidateList` /
`fetchCandidates` (`select("*")`). -/
structure Candidate where
  id : String
  name : String
  party : String
  description : Option String
  photo_url : Option String
deriving DecidableEq, Repr

/-- A row of the `candidates` table as fetched by `fetchVoteResults`
(`select("id, name, party")`). -/
structure CandidateRow where
  id : String
  name : String
  party : String
deriving DecidableEq, Repr

/-- A row of the `votes` table as fetched by `fetchVoteResults`
(`select("candidate_id")`). -/
structure VoteRow where
  candidate_id : String
deriving DecidableEq, Repr

/-- A row of the `votes` table as fetched by `fetchVoters`
(`select("voter_id")`). -/
structure VoterVoteRow where
  voter_id : String
deriving DecidableEq, Repr

/-- A row of the `profiles` table as fetched by `fetchVoters`
(`select("id, email, full_name, created_at")`). -/
structure ProfileRow where
  id : String
  email : String
  full_name : Option String
  created_at : String
deriving DecidableEq, Repr

/-- One tally entry (the `VoteCount` interface of the admin panel). -/
structure VoteCount where
  candidate_id : String
  candidate_name : String
  candidate_party : String
  vote_count : Nat
deriving DecidableEq, Repr

/-- One entry of the voter-participation list (the `Voter` interface). -/
structure Voter where
  id : String
  email : String
  full_name : Option String
  created_at : String
  has_voted : Bool
deriving DecidableEq, Repr

/-! ## Vote submission (`handleVote` in `src/CandidateList.tsx`) -/

/-- Result of the `supabase.from("votes").insert(...)` call: success, or an
error carrying the backend's error code string. -/
inductive InsertResult where
  | ok : InsertResult
  | err : String → InsertResult
deriving DecidableEq, Repr

/-- Observable effects of `handleVote`, in program order. -/
inductive Effect where
  | setVotingFor : Option String → Effect
  | insertVote : String → String → Effect
  | toastError : String → Effect
  | toastSuccess : String → Effect
  | logError : String → Effect
  | callOnVoteSuccess : Effect
deriving DecidableEq, Repr

/-- The `handleVote` function of `src/CandidateList.tsx` (lines 49-81),
as the ordered list of effects it performs, given the externally supplied
`hasVoted` flag, the user and candidate ids, and the insert call's result.
The trailing `setVotingFor none` on every non-rejected path is the `finally`
block. -/
def handleVote (hasVoted : Bool) (userId : String) (candidateId : String)
    (result : InsertResult) : List Effect :=
  if hasVoted then
    [Effect.toastError "You have already voted!"]
  else
    Effect.setVotingFor (some candidateId) ::
    Effect.insertVote userId candidateId ::
    ((match result with
      | InsertResult.ok =>
          [Effect.toastSuccess "Vote cast successfully!", Effect.callOnVoteSuccess]
      | InsertResult.err code =>
          if code = "23505" then
            [Effect.toastError "You have already cast your vote!"]
          else
            [Effect.logError "Error casting vote:",
             Effect.toastError "Failed to cast vote"]) ++
      [Effect.setVotingFor none])

/-- Replay the `setVotingFor` updates of an effect trace over an initial
`votingFor` state, yielding the final `votingFor` state. -/
def runVotingFor (s : Option String) : List Effect → Option String
  | [] => s
  | Effect.setVotingFor v :: rest => runVotingFor v rest
  | _ :: rest => runVotingFor s rest

/-- Recognizes the network vote-insert effect. -/
def isInsertVote : Effect → Bool
  | Effect.insertVote _ _ => true
  | _ => false

/-- Recognizes an invocation of the parent-supplied `onVoteSuccess` callback. -/
def isOnVoteSuccess : Effect → Bool
  | Effect.callOnVoteSuccess => true
  | _ => false

/-- Number of times a trace invokes the `onVoteSuccess` callback. -/
def onVoteSuccessCalls (tr : List Effect) : Nat :=
  tr.countP isOnVoteSuccess

/-! ## Tally derivation (`fetchVoteResults` in `src/unnamed/part_000`) -/

/-- The per-candidate counting step of `fetchVoteResults` (lines 95-100):
one entry per fetched candidate, counting the fetched vote rows whose
`candidate_id` equals that candidate's id. -/
def voteCounts (candidatesData : List CandidateRow) (votesData : List VoteRow) :
    List VoteCount :=
  candidatesData.map fun candidate =>
    { candidate_id := candidate.id
      candidate_name := candidate.name
      candidate_party := candidate.party
      vote_count :=
        (votesData.filter fun vote => vote.candidate_id == candidate.id).length }

/-- The comparator of `voteCounts.sort((a, b) => b.vote_count - a.vote_count)`:
`a` may come before `b` exactly when the comparator is nonpositive, i.e. when
`b.vote_count ≤ a.vote_count`. -/
def voteCountLE (a b : VoteCount) : Bool :=
  b.vote_count ≤ a.vote_count

/-- The pure core of `fetchVoteResults`: count per candidate, then sort by
count descending. `Array.prototype.sort` is stable (ECMAScript 2019), which
`List.mergeSort` models. -/
def fetchVoteResults (candidatesData : List CandidateRow) (votesData : List VoteRow) :
    List VoteCount :=
  (voteCounts candidatesData votesData).mergeSort voteCountLE

/-- `totalVotes` (line 175): `voteResults.reduce((sum, result) => sum +
result.vote_count, 0)`. -/
def totalVotes (voteResults : List VoteCount) : Nat :=
  voteResults.foldl (fun sum result => sum + result.vote_count) 0

/-- The per-entry percentage computed in the results render (line 209):
`totalVotes > 0 ? (result.vote_count / totalVotes) * 100 : 0`. The division
sits only in the guarded branch, so it is never evaluated when
`totalVotes == 0`. -/
def percentage (vote_count totalVotes : Nat) : ℚ :=
  if totalVotes > 0 then ((vote_count : ℚ) / (totalVotes : ℚ)) * 100 else 0

/-! ## Voter participation (`fetchVoters` in `src/unnamed/part_000`) -/

/-- The pure core of `fetchVoters` (lines 110-135): map each fetched profile,
in fetch order, to a `Voter` whose `has_voted` is
`votesData.some((vote) => vote.voter_id === profile.id)`. -/
def fetchVoters (profilesData : List ProfileRow) (votesData : List VoterVoteRow) :
    List Voter :=
  profilesData.map fun profile =>
    { id := profile.id
      email := profile.email
      full_name := profile.full_name
      created_at := profile.created_at
      has_voted := votesData.any fun vote => vote.voter_id == profile.id }

/-! ## Candidate creation (`handleAddCandidate` in `src/unnamed/part_000`) -/

/-- The `newCandidate` form state: four text inputs, empty string meaning
the field was left blank. -/
structure CandidateForm where
  name : String
  party : String
  description : String
  photo_url : String
deriving DecidableEq, Repr

/-- The row passed to `supabase.from("candidates").insert(...)`; optional
fields are `null` (`none`) when absent. -/
structure CandidateInsert where
  name : String
  party : String
  description : Option String
  photo_url : Option String
deriving DecidableEq, Repr

/-- JavaScript `s || null` on a string: the empty string is falsy, so it
becomes `null`; any other string is kept. -/
def strOrNull (s : String) : Option String :=
  if s = "" then none else some s

/-- Observable effects of the admin panel's candidate-creation handler. -/
inductive AdminEffect where
  | insertCandidate : CandidateInsert → AdminEffect
  | toastSuccess : String → AdminEffect
  | toastError : String → AdminEffect
  | logError : String → AdminEffect
  | setNewCandidate : CandidateForm → AdminEffect
  | fetchCandidatesCall : AdminEffect
  | fetchVoteResultsCall : AdminEffect
deriving DecidableEq, Repr

/-- The `handleAddCandidate` function (lines 137-158) as its ordered effect
trace, given the form state and whether the insert call returns an error. -/
def handleAddCandidate (newCandidate : CandidateForm) (insertFails : Bool) :
    List AdminEffect :=
  AdminEffect.insertCandidate
    { name := newCandidate.name
      party := newCandidate.party
      description := strOrNull newCandidate.description
      photo_url := strOrNull newCandidate.photo_url } ::
  (if insertFails then
    [AdminEffect.logError "Error adding candidate:",
     AdminEffect.toastError "Failed to add candidate"]
  else
    [AdminEffect.toastSuccess "Candidate added successfully",
     AdminEffect.setNewCandidate { name := "", party := "", description := "", photo_url := "" },
     AdminEffect.fetchCandidatesCall,
     AdminEffect.fetchVoteResultsCall])

/-- Recognizes the network candidate-insert effect. -/
def isInsertCandidate : AdminEffect → Bool
  | AdminEffect.insertCandidate _ => true
  | _ => false

/-! ## Vote-submission theorems -/

/-- C1: with the externally supplied `hasVoted` flag true, `handleVote`
performs no vote-insert network call, emits the already-voted error
notification, and leaves the `votingFor` submission state unchanged,
whatever the user, candidate, initial state and (hypothetical) insert
result. -/
theorem c1_hasVoted_rejected (userId candidateId : String) (result : InsertResult)
    (s0 : Option String) :
    (handleVote true userId candidateId result).countP isInsertVote = 0 ∧
    Effect.toastError "You have already voted!" ∈ handleVote true userId candidateId result ∧
    runVotingFor s0 (handleVote true userId candidateId result) = s0 := by
  refine ⟨rfl, ?_, rfl⟩
  simp [handleVote]

/-- C2: when the insert fails with the uniqueness-violation code `23505`,
`handleVote` reports the already-voted notification and not the generic
failure; when it fails with any other code, it reports the generic failure
and not the already-voted notification. -/
theorem c2_conflict_reported_as_already_voted (userId candidateId code : String) :
    (code = "23505" →
      Effect.toastError "You have already cast your vote!" ∈
          handleVote false userId candidateId (InsertResult.err code) ∧
      Effect.toastError "Failed to cast vote" ∉
          handleVote false userId candidateId (InsertResult.err code)) ∧
    (code ≠ "23505" →
      Effect.toastError "Failed to cast vote" ∈
          handleVote false userId candidateId (InsertResult.err code) ∧
      Effect.toastError "You have already cast your vote!" ∉
          handleVote false userId candidateId (InsertResult.err code)) := by
  constructor
  · rintro rfl
    constructor <;> simp [handleVote]
  · intro h
    constructor <;> simp [handleVote, h]

/-- Witness for C2 at the conflict code `"23505"` and the foreign-key
violation code `"23503"`. -/
theorem c2_witness :
    (Effect.toastError "You have already cast your vote!" ∈
        handleVote false "u" "c" (InsertResult.err "23505") ∧
      Effect.toastError "Failed to cast vote" ∉
        handleVote false "u" "c" (InsertResult.err "23505")) ∧
    (Effect.toastError "Failed to cast vote" ∈
        handleVote false "u" "c" (InsertResult.err "23503") ∧
      Effect.toastError "You have already cast your vote!" ∉
        handleVote false "u" "c" (InsertResult.err "23503")) :=
  ⟨(c2_conflict_reported_as_already_voted "u" "c" "23505").1 rfl,
   (c2_conflict_reported_as_already_voted "u" "c" "23503").2 (by decide)⟩

/-- C7: every submission that enters the submitting state (the `hasVoted`
precondition passed, so `setVotingFor (some candidateId)` is performed)
ends with `votingFor` reset to `none`, for every possible insert result —
the `finally` block guarantee. -/
theorem c7_always_returns_to_idle (userId candidateId : String) (result : InsertResult)
    (s0 : Option String) :
    Effect.setVotingFor (some candidateId) ∈ handleVote false userId candidateId result ∧
    runVotingFor s0 (handleVote false userId candidateId result) = none := by
  refine ⟨by cases result <;> simp [handleVote], ?_⟩
  cases result with
  | ok => rfl
  | err code =>
    by_cases h : code = "23505" <;> simp [handleVote, runVotingFor, h]

/-- C10: the `onVoteSuccess` callback is invoked exactly once on the
successful-insert path and never on any failure path — not on an insert
error (the handled `23505` conflict included) and not on the early
`hasVoted` rejection. -/
theorem c10_onVoteSuccess_only_on_success (userId candidateId : String) :
    onVoteSuccessCalls (handleVote false userId candidateId InsertResult.ok) = 1 ∧
    (∀ code : String,
      onVoteSuccessCalls (handleVote false userId candidateId (InsertResult.err code)) = 0) ∧
    (∀ result : InsertResult,
      onVoteSuccessCalls (handleVote true userId candidateId result) = 0) := by
  refine ⟨rfl, fun code => ?_, fun result => rfl⟩
  by_cases h : code = "23505" <;>
    simp [handleVote, onVoteSuccessCalls, isOnVoteSuccess, h, List.countP_cons]

/-! ## Tally helper lemmas -/

/-- The `reduce` in `totalVotes` computes the sum of the `vote_count` fields. -/
theorem totalVotes_eq_sum (l : List VoteCount) :
    totalVotes l = (l.map VoteCount.vote_count).sum := by
  suffices h : ∀ n : Nat,
      l.foldl (fun sum result => sum + result.vote_count) n
        = n + (l.map VoteCount.vote_count).sum by
    simpa [totalVotes] using h 0
  induction l with
  | nil => intro n; simp
  | cons a l ih =>
    intro n
    simp only [List.foldl_cons, List.map_cons, List.sum_cons, ih]
    omega

/-- The sort comparator is transitive. -/
theorem voteCountLE_trans (a b c : VoteCount) :
    voteCountLE a b → voteCountLE b c → voteCountLE a c := by
  simp only [voteCountLE, decide_eq_true_eq]
  omega

/-- The sort comparator is total. -/
theorem voteCountLE_total (a b : VoteCount) :
    voteCountLE a b || voteCountLE b a := by
  simp only [voteCountLE, Bool.or_eq_true, decide_eq_true_eq]
  omega

/-- Sorting preserves `totalVotes`. -/
theorem totalVotes_fetchVoteResults (candidatesData : List CandidateRow)
    (votesData : List VoteRow) :
    totalVotes (fetchVoteResults candidatesData votesData)
      = ((voteCounts candidatesData votesData).map VoteCount.vote_count).sum := by
  rw [totalVotes_eq_sum]
  exact ((List.mergeSort_perm _ voteCountLE).map VoteCount.vote_count).sum_eq

/-- Stability of the tally sort: the entries holding any fixed count appear in
the sorted output exactly in their input order. -/
theorem mergeSort_filter_count (l : List VoteCount) (k : Nat) :
    (l.mergeSort voteCountLE).filter (fun e => e.vote_count == k)
      = l.filter (fun e => e.vote_count == k) := by
  have hpair : (l.filter fun e => e.vote_count == k).Pairwise
      (fun a b => voteCountLE a b = true) := by
    apply List.pairwise_of_forall_mem_list
    intro a ha b hb
    have ha2 := (List.mem_filter.mp ha).2
    have hb2 := (List.mem_filter.mp hb).2
    simp only [beq_iff_eq] at ha2 hb2
    simp only [voteCountLE, decide_eq_true_eq, ha2, hb2]
    omega
  have hsub : List.Sublist (l.filter fun e => e.vote_count == k) (l.mergeSort voteCountLE) :=
    List.sublist_mergeSort voteCountLE_trans voteCountLE_total hpair (List.filter_sublist l)
  have hsub2 : List.Sublist (l.filter fun e => e.vote_count == k)
      ((l.mergeSort voteCountLE).filter (fun e => e.vote_count == k)) := by
    have h := List.Sublist.filter (fun e => e.vote_count == k) hsub
    simpa [List.filter_filter, Bool.and_self] using h
  have hlen : ((l.mergeSort voteCountLE).filter (fun e => e.vote_count == k)).length
      = (l.filter fun e => e.vote_count == k).length :=
    ((List.mergeSort_perm l voteCountLE).filter _).length_eq
  exact (hsub2.eq_of_length hlen.symm).symm

/-! ## Tally theorems -/

/-- C3: the tally is a pure function of the fetched vote rows and candidate
rows: `voteCounts` has exactly one entry per candidate, in candidate order,
whose count is the number of vote rows referencing that candidate's id; the
final `fetchVoteResults` list is a permutation of it, sorted by count
descending, and entries with equal counts (ties) appear in input order. -/
theorem c3_tally_pure_sorted (candidatesData : List CandidateRow) (votesData : List VoteRow) :
    (fetchVoteResults candidatesData votesData).Perm (voteCounts candidatesData votesData) ∧
    (voteCounts candidatesData votesData).length = candidatesData.length ∧
    (∀ i : Nat, ∀ hi : i < candidatesData.length,
      ∀ hi2 : i < (voteCounts candidatesData votesData).length,
      ((voteCounts candidatesData votesData).get ⟨i, hi2⟩).candidate_id
          = (candidatesData.get ⟨i, hi⟩).id ∧
      ((voteCounts candidatesData votesData).get ⟨i, hi2⟩).vote_count
          = votesData.countP fun vote =>
              vote.candidate_id == (candidatesData.get ⟨i, hi⟩).id) ∧
    (fetchVoteResults candidatesData votesData).Pairwise
      (fun a b => b.vote_count ≤ a.vote_count) ∧
    (∀ k : Nat,
      (fetchVoteResults candidatesData votesData).filter (fun e => e.vote_count == k)
        = (voteCounts candidatesData votesData).filter (fun e => e.vote_count == k)) := by
  refine ⟨List.mergeSort_perm _ _, List.length_map _ _, ?_, ?_, ?_⟩
  · intro i hi hi2
    simp [voteCounts, List.get_eq_getElem, List.getElem_map, List.countP_eq_length_filter]
  · have h := List.sorted_mergeSort
      voteCountLE_trans voteCountLE_total (voteCounts candidatesData votesData)
    exact h.imp fun hab => by simpa [voteCountLE, decide_eq_true_eq] using hab
  · intro k
    exact mergeSort_filter_count _ k

/-- Witness for C3 at the spec's scenario `candidates = [A, B]`,
`votes = [→A, →A, →B]`: the first tally entry is for `A` with count 2. -/
theorem c3_witness :
    ((voteCounts
        [{ id := "a", name := "A", party := "X" }, { id := "b", name := "B", party := "Y" }]
        [{ candidate_id := "a" }, { candidate_id := "a" }, { candidate_id := "b" }]).get
          ⟨0, by decide⟩).candidate_id
      = (([{ id := "a", name := "A", party := "X" },
           { id := "b", name := "B", party := "Y" }] : List CandidateRow).get ⟨0, by decide⟩).id ∧
    ((voteCounts
        [{ id := "a", name := "A", party := "X" }, { id := "b", name := "B", party := "Y" }]
        [{ candidate_id := "a" }, { candidate_id := "a" }, { candidate_id := "b" }]).get
          ⟨0, by decide⟩).vote_count
      = ([{ candidate_id := "a" }, { candidate_id := "a" },
          { candidate_id := "b" }] : List VoteRow).countP fun vote =>
            vote.candidate_id
              == (([{ id := "a", name := "A", party := "X" },
                    { id := "b", name := "B", party := "Y" }] : List CandidateRow).get
                    ⟨0, by decide⟩).id :=
  (c3_tally_pure_sorted _ _).2.2.1 0 (by decide) (by decide)

/-- C4: the displayed percentage is `count / totalVotes * 100` when
`totalVotes > 0` and `0` when `totalVotes = 0`; the guard keeps the division
inside the positive branch, so it is never evaluated when `totalVotes = 0`. -/
theorem c4_percentage_guarded (vote_count totalVotes : Nat) :
    (0 < totalVotes →
      percentage vote_count totalVotes = (vote_count : ℚ) / (totalVotes : ℚ) * 100) ∧
    (totalVotes = 0 → percentage vote_count totalVotes = 0) := by
  constructor
  · intro h
    simp [percentage, h]
  · rintro rfl
    simp [percentage]

/-- Witness for C4 at `count = 2, totalVotes = 4` and `count = 3, totalVotes = 0`. -/
theorem c4_witness :
    percentage 2 4 = (2 : ℚ) / (4 : ℚ) * 100 ∧ percentage 3 0 = 0 :=
  ⟨(c4_percentage_guarded 2 4).1 (by decide), (c4_percentage_guarded 3 0).2 rfl⟩

/-! ## Counting lemmas for the tally sums -/

/-- Sum of a pointwise sum splits. -/
theorem sum_map_add_nat {α : Type} (l : List α) (f g : α → Nat) :
    (l.map fun a => f a + g a).sum = (l.map f).sum + (l.map g).sum := by
  induction l with
  | nil => rfl
  | cons a l ih =>
    simp only [List.map_cons, List.sum_cons, ih]
    omega

/-- Summing the indicator of a Bool predicate counts the matches. -/
theorem sum_map_ite_countP {α : Type} (l : List α) (p : α → Bool) :
    (l.map fun a => if p a then (1 : Nat) else 0).sum = l.countP p := by
  induction l with
  | nil => rfl
  | cons a l ih =>
    cases h : p a <;> simp [List.countP_cons, h, ih] <;> omega

/-- Summing a constant `1` yields the length. -/
theorem sum_map_one {α : Type} (l : List α) :
    (l.map fun _ => (1 : Nat)).sum = l.length := by
  induction l with
  | nil => rfl
  | cons a l ih =>
    simp [ih]
    omega

/-- The per-candidate counts of `voteCounts`, as `countP` over the vote rows. -/
theorem voteCounts_map_vote_count (candidatesData : List CandidateRow)
    (votesData : List VoteRow) :
    (voteCounts candidatesData votesData).map VoteCount.vote_count
      = candidatesData.map fun candidate =>
          votesData.countP fun vote => vote.candidate_id == candidate.id := by
  simp [voteCounts, List.map_map, Function.comp_def, List.countP_eq_length_filter]

/-- Double counting: summing matches per candidate equals summing, per vote
row, the number of candidates that row references. -/
theorem counts_sum_swap (candidatesData : List CandidateRow) (votesData : List VoteRow) :
    ((voteCounts candidatesData votesData).map VoteCount.vote_count).sum
      = (votesData.map fun vote =>
          (candidatesData.filter fun candidate =>
            vote.candidate_id == candidate.id).length).sum := by
  rw [voteCounts_map_vote_count]
  induction votesData with
  | nil => simp
  | cons v vs ih =>
    have hstep : ∀ c : CandidateRow,
        ((v :: vs).countP fun vote => vote.candidate_id == c.id)
          = (vs.countP fun vote => vote.candidate_id == c.id)
            + (if v.candidate_id == c.id then 1 else 0) := by
      intro c
      simp [List.countP_cons]
    rw [List.map_congr_left fun c _ => hstep c, sum_map_add_nat, ih,
      sum_map_ite_countP, List.map_cons, List.sum_cons,
      List.countP_eq_length_filter]
    omega

/-- With pairwise-distinct candidate ids, a vote row referencing a fetched
candidate matches exactly one candidate. -/
theorem filter_id_length_one (candidatesData : List CandidateRow) (x : String)
    (hnd : (candidatesData.map CandidateRow.id).Nodup)
    (hx : x ∈ candidatesData.map CandidateRow.id) :
    (candidatesData.filter fun candidate => x == candidate.id).length = 1 := by
  induction candidatesData with
  | nil => simp at hx
  | cons c cs ih =>
    rw [List.map_cons, List.nodup_cons] at hnd
    rw [List.map_cons, List.mem_cons] at hx
    rcases hx with rfl | hx
    · have hnil : (cs.filter fun candidate => c.id == candidate.id) = [] := by
        rw [List.filter_eq_nil_iff]
        intro a ha
        simp only [beq_iff_eq]
        intro hh
        exact hnd.1 (hh ▸ List.mem_map_of_mem CandidateRow.id ha)
      simp [List.filter_cons, hnil]
    · have hxc : ¬ (x == c.id) = true := by
        simp only [beq_iff_eq]
        rintro rfl
        exact hnd.1 hx
      simp only [List.filter_cons, hxc, if_false]
      exact ih hnd.2 hx

/-- A vote row referencing no fetched candidate matches no candidate. -/
theorem filter_id_length_zero (candidatesData : List CandidateRow) (x : String)
    (hx : x ∉ candidatesData.map CandidateRow.id) :
    (candidatesData.filter fun candidate => x == candidate.id).length = 0 := by
  rw [List.length_eq_zero, List.filter_eq_nil_iff]
  intro a ha
  simp only [beq_iff_eq]
  rintro rfl
  exact hx (List.mem_map_of_mem CandidateRow.id ha)

/-- With distinct candidate ids, `totalVotes` counts exactly the vote rows
whose candidate reference is among the fetched candidates. -/
theorem totalVotes_eq_countP_inIds (candidatesData : List CandidateRow)
    (votesData : List VoteRow)
    (hnd : (candidatesData.map CandidateRow.id).Nodup) :
    totalVotes (fetchVoteResults candidatesData votesData)
      = votesData.countP fun vote =>
          decide (vote.candidate_id ∈ candidatesData.map CandidateRow.id) := by
  rw [totalVotes_fetchVoteResults, counts_sum_swap]
  rw [← sum_map_ite_countP votesData
    (fun vote => decide (vote.candidate_id ∈ candidatesData.map CandidateRow.id))]
  apply congrArg List.sum
  apply List.map_congr_left
  intro v _
  by_cases hv : v.candidate_id ∈ candidatesData.map CandidateRow.id
  · simp only [decide_eq_true hv, if_true]
    exact filter_id_length_one candidatesData _ hnd hv
  · simp only [decide_eq_false hv, if_false]
    exact filter_id_length_zero candidatesData _ hv

/-! ## Sum-of-counts theorems (C5, C9) -/

/-- C5 counterexample: with one candidate and one vote row whose candidate
reference matches no fetched candidate, the sum of the per-candidate tally
counts (which is what the code's `totalVotes` computes) is `0`, while the
number of fetched vote records is `1` — so the claim's identification of
`totalVotes` with the total number of vote records fails on non-empty
inputs. -/
theorem c5_counterexample :
    ¬ (totalVotes (fetchVoteResults
          [{ id := "a", name := "Alice", party := "X" }]
          [{ candidate_id := "zzz" }])
        = ([{ candidate_id := "zzz" }] : List VoteRow).length) := by
  rw [totalVotes_fetchVoteResults]
  decide

/-- C5 amended: the sum of the per-candidate tally counts is exactly what the
code's `totalVotes` computes; it equals the number of fetched vote records
when the fetched candidate ids are pairwise distinct and every vote record
references a fetched candidate (the backend's data-model invariants). -/
theorem c5_sum_counts_eq_totalVotes (candidatesData : List CandidateRow)
    (votesData : List VoteRow)
    (_hcs : candidatesData ≠ []) (_hvs : votesData ≠ [])
    (hnd : (candidatesData.map CandidateRow.id).Nodup)
    (hcov : ∀ vote ∈ votesData,
      vote.candidate_id ∈ candidatesData.map CandidateRow.id) :
    totalVotes (fetchVoteResults candidatesData votesData)
        = ((voteCounts candidatesData votesData).map VoteCount.vote_count).sum ∧
    totalVotes (fetchVoteResults candidatesData votesData) = votesData.length := by
  refine ⟨totalVotes_fetchVoteResults candidatesData votesData, ?_⟩
  rw [totalVotes_fetchVoteResults, counts_sum_swap]
  have h1 : ∀ vote ∈ votesData,
      ((candidatesData.filter fun candidate =>
          vote.candidate_id == candidate.id).length) = 1 :=
    fun vote hv => filter_id_length_one candidatesData _ hnd (hcov vote hv)
  rw [List.map_congr_left h1, sum_map_one]

/-- Witness for the amended C5 at the spec's scenario `candidates = [A, B]`,
`votes = [→A, →A, →B]`: the counts sum to 3, the number of vote records. -/
theorem c5_witness :
    totalVotes (fetchVoteResults
        [{ id := "a", name := "A", party := "X" },
         { id := "b", name := "B", party := "Y" }]
        [{ candidate_id := "a" }, { candidate_id := "a" }, { candidate_id := "b" }])
      = ([{ candidate_id := "a" }, { candidate_id := "a" },
          { candidate_id := "b" }] : List VoteRow).length :=
  (c5_sum_counts_eq_totalVotes _ _ (by decide) (by decide) (by decide) (by decide)).2

/-- C9: vote rows referencing no fetched candidate contribute to no tally
entry (dropping them leaves `voteCounts` unchanged), and `totalVotes` counts
only the vote rows referencing a fetched candidate — so a vote set holding an
orphan row has `totalVotes` strictly below the number of fetched vote
records. Candidate ids are assumed pairwise distinct (a backend primary
key). -/
theorem c9_orphan_votes_uncounted (candidatesData : List CandidateRow)
    (votesData : List VoteRow)
    (hnd : (candidatesData.map CandidateRow.id).Nodup)
    (v0 : VoteRow) (hv0 : v0 ∈ votesData)
    (horphan : v0.candidate_id ∉ candidatesData.map CandidateRow.id) :
    voteCounts candidatesData
        (votesData.filter fun vote =>
          decide (vote.candidate_id ∈ candidatesData.map CandidateRow.id))
      = voteCounts candidatesData votesData ∧
    totalVotes (fetchVoteResults candidatesData votesData)
      = votesData.countP (fun vote =>
          decide (vote.candidate_id ∈ candidatesData.map CandidateRow.id)) ∧
    totalVotes (fetchVoteResults candidatesData votesData) < votesData.length := by
  refine ⟨?_, totalVotes_eq_countP_inIds candidatesData votesData hnd, ?_⟩
  · unfold voteCounts
    apply List.map_congr_left
    intro c hc
    have hfil : ∀ vote ∈ votesData,
        ((vote.candidate_id == c.id) &&
            decide (vote.candidate_id ∈ candidatesData.map CandidateRow.id))
          = (vote.candidate_id == c.id) := by
      intro vote _
      cases h : vote.candidate_id == c.id
      · rw [Bool.false_and]
      · have heq : vote.candidate_id = c.id := by simpa [beq_iff_eq] using h
        have hmem : vote.candidate_id ∈ candidatesData.map CandidateRow.id :=
          heq ▸ List.mem_map_of_mem CandidateRow.id hc
        rw [Bool.true_and, decide_eq_true hmem]
    rw [List.filter_filter, List.filter_congr hfil]
  · rw [totalVotes_eq_countP_inIds candidatesData votesData hnd]
    have hle : votesData.countP
        (fun vote => decide (vote.candidate_id ∈ candidatesData.map CandidateRow.id))
          ≤ votesData.length := List.countP_le_length _
    have hne : votesData.countP
        (fun vote => decide (vote.candidate_id ∈ candidatesData.map CandidateRow.id))
          ≠ votesData.length := by
      intro he
      have hall := List.countP_eq_length.mp he v0 hv0
      exact horphan (of_decide_eq_true hall)
    omega

/-- Witness for C9 with `candidates = [A]` and `votes = [→A, →zzz]`:
`totalVotes = 1 < 2`. -/
theorem c9_witness :
    totalVotes (fetchVoteResults
        [{ id := "a", name := "A", party := "X" }]
        [{ candidate_id := "a" }, { candidate_id := "zzz" }])
      < ([{ candidate_id := "a" }, { candidate_id := "zzz" }] : List VoteRow).length :=
  (c9_orphan_votes_uncounted _ _ (by decide) { candidate_id := "zzz" }
    (by decide) (by decide)).2.2

/-! ## Voter-participation theorem (C6) -/

/-- C6: `fetchVoters` maps the fetched profiles in fetch order — same length,
and the entry at each position keeps that profile's fields — and labels the
entry `has_voted = true` exactly when some fetched vote row's `voter_id`
equals the profile's id. -/
theorem c6_voters_pure (profilesData : List ProfileRow) (votesData : List VoterVoteRow) :
    (fetchVoters profilesData votesData).length = profilesData.length ∧
    (∀ i : Nat, ∀ hi : i < profilesData.length,
      ∀ hi2 : i < (fetchVoters profilesData votesData).length,
      ((fetchVoters profilesData votesData).get ⟨i, hi2⟩).id
          = (profilesData.get ⟨i, hi⟩).id ∧
      ((fetchVoters profilesData votesData).get ⟨i, hi2⟩).email
          = (profilesData.get ⟨i, hi⟩).email ∧
      ((fetchVoters profilesData votesData).get ⟨i, hi2⟩).full_name
          = (profilesData.get ⟨i, hi⟩).full_name ∧
      ((fetchVoters profilesData votesData).get ⟨i, hi2⟩).created_at
          = (profilesData.get ⟨i, hi⟩).created_at ∧
      (((fetchVoters profilesData votesData).get ⟨i, hi2⟩).has_voted = true ↔
        ∃ vote ∈ votesData, vote.voter_id = (profilesData.get ⟨i, hi⟩).id)) := by
  refine ⟨List.length_map _ _, ?_⟩
  intro i hi hi2
  simp only [fetchVoters, List.get_eq_getElem, List.getElem_map]
  refine ⟨trivial, trivial, trivial, trivial, ?_⟩
  rw [List.any_eq_true]
  constructor
  · rintro ⟨vote, hv, hb⟩
    exact ⟨vote, hv, by simpa [beq_iff_eq] using hb⟩
  · rintro ⟨vote, hv, hb⟩
    exact ⟨vote, hv, by simpa [beq_iff_eq] using hb⟩

/-- Witness for C6 at the spec's scenario `profiles = [{id: "u1"}]`,
`votes = [{voterId: "u1"}]`: the derived entry has `has_voted = true` exactly
when some vote row references `"u1"`. -/
theorem c6_witness :
    ((fetchVoters [{ id := "u1", email := "e", full_name := none, created_at := "t" }]
        [{ voter_id := "u1" }]).get ⟨0, by decide⟩).has_voted = true ↔
      ∃ vote ∈ ([{ voter_id := "u1" }] : List VoterVoteRow),
        vote.voter_id
          = (([{ id := "u1", email := "e", full_name := none, created_at := "t" }] :
              List ProfileRow).get ⟨0, by decide⟩).id :=
  ((c6_voters_pure _ _).2 0 (by decide) (by decide)).2.2.2.2

/-! ## Candidate-creation theorem (C8) -/

/-- C8: `handleAddCandidate` performs exactly one candidate insert; in the
inserted row the optional description and photo fields are `none` when the
corresponding form field is the empty string and keep the entered text
otherwise; and on success it clears all four form fields and refreshes both
the candidate list and the tally. -/
theorem c8_addCandidate (newCandidate : CandidateForm) (insertFails : Bool) :
    (handleAddCandidate newCandidate insertFails).countP isInsertCandidate = 1 ∧
    AdminEffect.insertCandidate
        { name := newCandidate.name
          party := newCandidate.party
          description :=
            if newCandidate.description = "" then none else some newCandidate.description
          photo_url :=
            if newCandidate.photo_url = "" then none else some newCandidate.photo_url }
      ∈ handleAddCandidate newCandidate insertFails ∧
    (insertFails = false →
      AdminEffect.setNewCandidate
          { name := "", party := "", description := "", photo_url := "" }
        ∈ handleAddCandidate newCandidate insertFails ∧
      AdminEffect.fetchCandidatesCall ∈ handleAddCandidate newCandidate insertFails ∧
      AdminEffect.fetchVoteResultsCall ∈ handleAddCandidate newCandidate insertFails) := by
  refine ⟨?_, ?_, ?_⟩
  · cases insertFails <;> rfl
  · cases insertFails <;>
      simp [handleAddCandidate, strOrNull]
  · rintro rfl
    refine ⟨?_, ?_, ?_⟩ <;> simp [handleAddCandidate]

/-- Witness for C8 on the success path with a blank description and a filled
photo field. -/
theorem c8_witness :
    AdminEffect.insertCandidate
        { name := "N", party := "P", description := none, photo_url := some "http" }
      ∈ handleAddCandidate
          { name := "N", party := "P", description := "", photo_url := "http" } false ∧
    AdminEffect.setNewCandidate
        { name := "", party := "", description := "", photo_url := "" }
      ∈ handleAddCandidate
          { name := "N", party := "P", description := "", photo_url := "http" } false ∧
    AdminEffect.fetchCandidatesCall
      ∈ handleAddCandidate
          { name := "N", party := "P", description := "", photo_url := "http" } false ∧
    AdminEffect.fetchVoteResultsCall
      ∈ handleAddCandidate
          { name := "N", party := "P", description := "", photo_url := "http" } false := by
  have h := c8_addCandidate
    { name := "N", party := "P", description := "", photo_url := "http" } false
  have h3 := h.2.2 rfl
  exact ⟨by simpa using h.2.1, h3.1, h3.2.1, h3.2.2⟩
